import Mathlib

/-!
Verification of the realtime512 MEA-movie playback and rendering engine.

The development shallowly embeds the functions of
`figpack-realtime512-ui/src/views/MEAMovie/` (the `MEAMovieClient` class,
the `MEAMovieView` playback loop, and the `MEAMovieCanvas` rendering and
spike-overlay code) as pure Lean functions over `ℚ`, and proves the
specified properties about them.  JavaScript numbers are modelled as exact
rationals; `Date.now()` wall-clock values are in milliseconds, data times
in seconds, exactly as in the source.
-/

/-- JavaScript `Math.round`: rounds half toward positive infinity,
i.e. `Math.round x = ⌊x + 1/2⌋`. -/
def jsRound (x : ℚ) : ℤ := Int.floor (x + 1/2)

/-- Immutable per-recording metadata held by `MEAMovieClient`
(`MEAMovieClient.ts`, constructor fields). -/
structure Recording where
  numTimepoints : ℕ
  numChannels : ℕ
  samplingFrequencyHz : ℚ
  startTimeSec : ℚ
  dataMin : ℚ
  dataMax : ℚ
  dataMedian : ℚ

/-- `get endTimeSec`: `startTimeSec + numTimepoints / samplingFrequencyHz`. -/
def Recording.endTimeSec (r : Recording) : ℚ :=
  r.startTimeSec + (r.numTimepoints : ℚ) / r.samplingFrequencyHz

/-- `getTimeFromIndex(timeIndex)`: `startTimeSec + timeIndex / samplingFrequencyHz`. -/
def Recording.getTimeFromIndex (r : Recording) (timeIndex : ℤ) : ℚ :=
  r.startTimeSec + (timeIndex : ℚ) / r.samplingFrequencyHz

/-- `getIndexFromTime(timeSec)`:
`Math.max(0, Math.min(numTimepoints - 1, Math.round((timeSec - startTimeSec) * samplingFrequencyHz)))`. -/
def Recording.getIndexFromTime (r : Recording) (timeSec : ℚ) : ℤ :=
  max 0 (min ((r.numTimepoints : ℤ) - 1)
    (jsRound ((timeSec - r.startTimeSec) * r.samplingFrequencyHz)))

/-- The concrete recording of end-to-end scenario A:
20000 samples at 20000 Hz starting at time 0 (end time 1.0 s). -/
def recA : Recording :=
  { numTimepoints := 20000
    numChannels := 4
    samplingFrequencyHz := 20000
    startTimeSec := 0
    dataMin := -100
    dataMax := 50
    dataMedian := 0 }

/-- `l.foldl min d` is at most the initial value `d`. -/
theorem foldl_min_le_init (l : List ℚ) (d : ℚ) : l.foldl min d ≤ d := by
  induction l generalizing d with
  | nil => exact le_refl d
  | cons a as ih => exact le_trans (ih (min d a)) (min_le_left d a)

/-- `l.foldl min d` is at most any member of `l`. -/
theorem foldl_min_le_mem (l : List ℚ) (d x : ℚ) (hx : x ∈ l) : l.foldl min d ≤ x := by
  induction l generalizing d with
  | nil => cases hx
  | cons a as ih =>
    rcases List.mem_cons.mp hx with h | h
    · subst h
      exact le_trans (foldl_min_le_init as (min d x)) (min_le_right d x)
    · exact ih (min d a) h

/-- `l.foldl min d` is either `d` or a member of `l`. -/
theorem foldl_min_mem (l : List ℚ) (d : ℚ) : l.foldl min d = d ∨ l.foldl min d ∈ l := by
  induction l generalizing d with
  | nil => exact Or.inl rfl
  | cons a as ih =>
    rcases ih (min d a) with h | h
    · rcases min_cases d a with ⟨h2, _⟩ | ⟨h2, _⟩
      · exact Or.inl (by rw [List.foldl_cons, h, h2])
      · exact Or.inr (by rw [List.foldl_cons, h, h2]; exact List.mem_cons_self a as)
    · exact Or.inr (List.mem_cons_of_mem a h)

/-- C2: `timeToIndex(t)` equals `round((t − startTime) × samplingFrequency)`
clamped into `[0, sampleCount−1]` for every `t` (it is a pure total
function), and for every `t ∈ [startTime, endTime]` the round trip
`indexToTime(timeToIndex(t))` differs from `t` by at most one sample
period `1/samplingFrequency`. -/
theorem c2_time_index_conversions (r : Recording)
    (hN : 1 ≤ r.numTimepoints) (hf : 0 < r.samplingFrequencyHz) :
    (∀ t : ℚ,
      r.getIndexFromTime t
        = min (max (jsRound ((t - r.startTimeSec) * r.samplingFrequencyHz)) 0)
            ((r.numTimepoints : ℤ) - 1)
      ∧ 0 ≤ r.getIndexFromTime t
      ∧ r.getIndexFromTime t ≤ (r.numTimepoints : ℤ) - 1)
    ∧ (∀ t : ℚ, r.startTimeSec ≤ t → t ≤ r.endTimeSec →
        |r.getTimeFromIndex (r.getIndexFromTime t) - t| ≤ 1 / r.samplingFrequencyHz) := by
  have hN' : (1 : ℤ) ≤ (r.numTimepoints : ℤ) := by exact_mod_cast hN
  constructor
  · intro t
    unfold Recording.getIndexFromTime
    refine ⟨?_, ?_, ?_⟩ <;> omega
  · intro t ht1 ht2
    set s := r.startTimeSec with hs
    set f := r.samplingFrequencyHz with hfdef
    set N := r.numTimepoints with hNdef
    set x : ℚ := (t - s) * f with hxdef
    have hx0 : 0 ≤ x := mul_nonneg (by linarith) hf.le
    have hxN : x ≤ (N : ℚ) := by
      have hend : t ≤ s + (N : ℚ) / f := ht2
      have h1 : t - s ≤ (N : ℚ) / f := by linarith
      calc x = (t - s) * f := hxdef
        _ ≤ ((N : ℚ) / f) * f := mul_le_mul_of_nonneg_right h1 hf.le
        _ = (N : ℚ) := div_mul_cancel₀ _ (ne_of_gt hf)
    have hfloor0 : (0 : ℤ) ≤ ⌊x + 1/2⌋ := Int.le_floor.mpr (by push_cast; linarith)
    have hidx : r.getIndexFromTime t = min ((N : ℤ) - 1) ⌊x + 1/2⌋ := by
      unfold Recording.getIndexFromTime jsRound
      rw [← hs, ← hfdef, ← hNdef, ← hxdef]
      omega
    have key : |((min ((N : ℤ) - 1) ⌊x + 1/2⌋ : ℤ) : ℚ) - x| ≤ 1 := by
      rcases le_or_lt ⌊x + 1/2⌋ ((N : ℤ) - 1) with hc | hc
      · rw [min_eq_right hc]
        have h1 : (⌊x + 1/2⌋ : ℚ) ≤ x + 1/2 := Int.floor_le _
        have h2 : x + 1/2 < ⌊x + 1/2⌋ + 1 := Int.lt_floor_add_one _
        rw [abs_le]
        constructor <;> linarith
      · rw [min_eq_left hc.le]
        have hge : (N : ℤ) ≤ ⌊x + 1/2⌋ := by omega
        have hge' : (N : ℚ) ≤ x + 1/2 := by exact_mod_cast Int.le_floor.mp hge
        rw [abs_le]
        push_cast
        constructor <;> linarith
    have hexp : r.getTimeFromIndex (min ((N : ℤ) - 1) ⌊x + 1/2⌋) - t
        = (((min ((N : ℤ) - 1) ⌊x + 1/2⌋ : ℤ) : ℚ) - x) / f := by
      unfold Recording.getTimeFromIndex
      rw [← hs, ← hfdef, hxdef]
      field_simp
      try ring
    rw [hidx, hexp, abs_div, abs_of_pos hf]
    exact (div_le_div_iff_of_pos_right hf).mpr key

/-- Witness for C2 at the scenario-A recording and `t = 0.25`. -/
theorem c2_time_index_conversions_witness :
    |recA.getTimeFromIndex (recA.getIndexFromTime (1/4)) - 1/4|
      ≤ 1 / recA.samplingFrequencyHz := by
  have h := (c2_time_index_conversions recA (by norm_num [recA]) (by norm_num [recA])).2
  exact h (1/4) (by norm_num [recA]) (by norm_num [recA, Recording.endTimeSec])

/-- Playback-related component state of `MEAMovieView` (the `useState` hooks
`isPlaying`, `playbackSpeed`, `playbackStartWallClockTime`,
`playbackStartDataTime`, plus the `currentTime` of the timeseries-selection
context).  Wall-clock values are `Date.now()` milliseconds. -/
structure PlaybackState where
  isPlaying : Bool
  playbackSpeed : ℚ
  playbackStartWallClockTime : Option ℚ
  playbackStartDataTime : Option ℚ
  currentTime : ℚ

/-- One iteration of the playback loop (`MEAMovieView` effect, the `animate`
callback): guarded by the effect's early return when not playing or when an
anchor is missing.  Returns the updated state and whether another animation
frame was scheduled (`requestAnimationFrame` called again). -/
def animate (r : Recording) (s : PlaybackState) (now : ℚ) : PlaybackState × Bool :=
  if s.isPlaying then
    match s.playbackStartWallClockTime, s.playbackStartDataTime with
    | some w0, some d0 =>
      let elapsedWallClockTimeSec := (now - w0) / 1000
      let newDataTime := d0 + elapsedWallClockTimeSec * s.playbackSpeed
      if r.endTimeSec ≤ newDataTime then
        ({ s with isPlaying := false
                  currentTime := r.endTimeSec
                  playbackStartWallClockTime := none
                  playbackStartDataTime := none }, false)
      else
        ({ s with currentTime := newDataTime }, true)
    | _, _ => (s, false)
  else (s, false)

/-- `handlePlayPause` of `MEAMovieView`: pausing clears the anchor pair;
starting captures `(Date.now(), currentTime)` as the anchor, restarting from
the beginning when the position is at or past the end. -/
def handlePlayPause (r : Recording) (s : PlaybackState) (now : ℚ) : PlaybackState :=
  if s.isPlaying then
    { s with isPlaying := false
             playbackStartWallClockTime := none
             playbackStartDataTime := none }
  else
    if r.endTimeSec ≤ s.currentTime then
      { s with currentTime := r.startTimeSec
               playbackStartWallClockTime := some now
               playbackStartDataTime := some r.startTimeSec
               isPlaying := true }
    else
      { s with playbackStartWallClockTime := some now
               playbackStartDataTime := some s.currentTime
               isPlaying := true }

/-- C1: while `Playing` with anchor `(w0, d0)`, an advance at wall time `now`
computes `newDataTime = d0 + ((now − w0)/1000) × speed`; if it is at or past
`endTime` the published position is exactly `endTime`, the state becomes
stopped, and no further advance is scheduled; otherwise `newDataTime` is
published unchanged and the next advance is scheduled.  Moreover, in
scenario A (20000 samples at 20000 Hz, start 0), `play()` at wall time
1000 ms followed by an advance at 1250 ms with speed 1 reports data time
0.25, and `timeToIndex(0.25) = 5000`. -/
theorem c1_playback_advance (r : Recording) (s : PlaybackState) (now w0 d0 : ℚ)
    (hplay : s.isPlaying = true)
    (hw : s.playbackStartWallClockTime = some w0)
    (hd : s.playbackStartDataTime = some d0) :
    (let newDataTime := d0 + (now - w0) / 1000 * s.playbackSpeed
     if r.endTimeSec ≤ newDataTime then
       animate r s now
         = ({ s with isPlaying := false
                     currentTime := r.endTimeSec
                     playbackStartWallClockTime := none
                     playbackStartDataTime := none }, false)
     else
       animate r s now = ({ s with currentTime := newDataTime }, true))
    ∧ (animate recA (handlePlayPause recA
          { isPlaying := false, playbackSpeed := 1
            playbackStartWallClockTime := none, playbackStartDataTime := none
            currentTime := 0 } 1000) 1250).1.currentTime = 1/4
    ∧ recA.getIndexFromTime (1/4) = 5000 := by
  refine ⟨?_, ?_, ?_⟩
  · dsimp only
    split
    · rename_i hend
      simp only [animate, hplay, hw, hd, if_true]
      rw [if_pos hend]
    · rename_i hend
      simp only [animate, hplay, hw, hd, if_true]
      rw [if_neg hend]
  · norm_num [animate, handlePlayPause, recA, Recording.endTimeSec]
  · norm_num [recA, Recording.getIndexFromTime, jsRound]

/-- Witness for C1: a concrete playing state strictly before the end is
advanced to the extrapolated data time 0.1 with another frame scheduled. -/
theorem c1_playback_advance_witness :
    (let newDataTime := (0 : ℚ) + ((100 : ℚ) - 0) / 1000 * 1
     if recA.endTimeSec ≤ newDataTime then
       animate recA
         { isPlaying := true, playbackSpeed := 1
           playbackStartWallClockTime := some 0, playbackStartDataTime := some 0
           currentTime := 0 } 100
         = ({ isPlaying := false, playbackSpeed := 1
              playbackStartWallClockTime := none, playbackStartDataTime := none
              currentTime := recA.endTimeSec }, false)
     else
       animate recA
         { isPlaying := true, playbackSpeed := 1
           playbackStartWallClockTime := some 0, playbackStartDataTime := some 0
           currentTime := 0 } 100
         = ({ isPlaying := true, playbackSpeed := 1
              playbackStartWallClockTime := some 0, playbackStartDataTime := some 0
              currentTime := newDataTime }, true))
    ∧ (animate recA (handlePlayPause recA
          { isPlaying := false, playbackSpeed := 1
            playbackStartWallClockTime := none, playbackStartDataTime := none
            currentTime := 0 } 1000) 1250).1.currentTime = 1/4
    ∧ recA.getIndexFromTime (1/4) = 5000 :=
  c1_playback_advance recA
    { isPlaying := true, playbackSpeed := 1
      playbackStartWallClockTime := some 0, playbackStartDataTime := some 0
      currentTime := 0 } 100 0 0 rfl rfl rfl

/-- C4: `pause()` from `Playing` clears the anchor pair, leaves
`currentDataTime` and the speed exactly where they were, and stops; pausing
then immediately resuming at the same instant (with the position strictly
before `endTime`) re-anchors at `(now, currentTime)`, and the data time the
next advance reports at that same instant equals the data time before
pausing (no discontinuity). -/
theorem c4_pause_resume_continuity (r : Recording) (s : PlaybackState) (now : ℚ)
    (hplay : s.isPlaying = true) (hlt : s.currentTime < r.endTimeSec) :
    (handlePlayPause r s now).isPlaying = false
    ∧ (handlePlayPause r s now).playbackStartWallClockTime = none
    ∧ (handlePlayPause r s now).playbackStartDataTime = none
    ∧ (handlePlayPause r s now).currentTime = s.currentTime
    ∧ (handlePlayPause r s now).playbackSpeed = s.playbackSpeed
    ∧ (handlePlayPause r (handlePlayPause r s now) now).playbackStartWallClockTime
        = some now
    ∧ (handlePlayPause r (handlePlayPause r s now) now).playbackStartDataTime
        = some s.currentTime
    ∧ (animate r (handlePlayPause r (handlePlayPause r s now) now) now).1.currentTime
        = s.currentTime := by
  have hnotend : ¬ r.endTimeSec ≤ s.currentTime := not_le.mpr hlt
  refine ⟨?_, ?_, ?_, ?_, ?_, ?_, ?_, ?_⟩ <;>
    simp [handlePlayPause, animate, hplay, hnotend]

/-- Witness for C4 at a concrete playing state at position 1/2 (before the
end time 1 of the scenario-A recording). -/
theorem c4_pause_resume_continuity_witness :
    (handlePlayPause recA
        { isPlaying := true, playbackSpeed := 2
          playbackStartWallClockTime := some 700, playbackStartDataTime := some (1/4)
          currentTime := 1/2 } 900).isPlaying = false
    ∧ (handlePlayPause recA
        { isPlaying := true, playbackSpeed := 2
          playbackStartWallClockTime := some 700, playbackStartDataTime := some (1/4)
          currentTime := 1/2 } 900).playbackStartWallClockTime = none
    ∧ (handlePlayPause recA
        { isPlaying := true, playbackSpeed := 2
          playbackStartWallClockTime := some 700, playbackStartDataTime := some (1/4)
          currentTime := 1/2 } 900).playbackStartDataTime = none
    ∧ (handlePlayPause recA
        { isPlaying := true, playbackSpeed := 2
          playbackStartWallClockTime := some 700, playbackStartDataTime := some (1/4)
          currentTime := 1/2 } 900).currentTime
        = ({ isPlaying := true, playbackSpeed := 2
             playbackStartWallClockTime := some 700, playbackStartDataTime := some (1/4)
             currentTime := 1/2 } : PlaybackState).currentTime
    ∧ (handlePlayPause recA
        { isPlaying := true, playbackSpeed := 2
          playbackStartWallClockTime := some 700, playbackStartDataTime := some (1/4)
          currentTime := 1/2 } 900).playbackSpeed
        = ({ isPlaying := true, playbackSpeed := 2
             playbackStartWallClockTime := some 700, playbackStartDataTime := some (1/4)
             currentTime := 1/2 } : PlaybackState).playbackSpeed
    ∧ (handlePlayPause recA (handlePlayPause recA
        { isPlaying := true, playbackSpeed := 2
          playbackStartWallClockTime := some 700, playbackStartDataTime := some (1/4)
          currentTime := 1/2 } 900) 900).playbackStartWallClockTime = some 900
    ∧ (handlePlayPause recA (handlePlayPause recA
        { isPlaying := true, playbackSpeed := 2
          playbackStartWallClockTime := some 700, playbackStartDataTime := some (1/4)
          currentTime := 1/2 } 900) 900).playbackStartDataTime = some (1/2)
    ∧ (animate recA (handlePlayPause recA (handlePlayPause recA
        { isPlaying := true, playbackSpeed := 2
          playbackStartWallClockTime := some 700, playbackStartDataTime := some (1/4)
          currentTime := 1/2 } 900) 900) 900).1.currentTime = 1/2 :=
  c4_pause_resume_continuity recA
    { isPlaying := true, playbackSpeed := 2
      playbackStartWallClockTime := some 700, playbackStartDataTime := some (1/4)
      currentTime := 1/2 } 900 rfl
    (by norm_num [recA, Recording.endTimeSec])

/-- `SPIKE_PERSISTENCE_DURATION_SEC` of `MEAMovieCanvas` (0.5 s of
wall-clock time). -/
def SPIKE_PERSISTENCE_DURATION_SEC : ℚ := 1/2

/-- `persistenceDurationMs = SPIKE_PERSISTENCE_DURATION_SEC * 1000`. -/
def persistenceDurationMs : ℚ := SPIKE_PERSISTENCE_DURATION_SEC * 1000

/-- Opacity of a spike ring in the `MEAMovieCanvas` render effect: starts at
0.9 and, while playing with a recorded timestamp, becomes
`0.9 * (1 - (now - spikeTimestamp) / persistenceDurationMs)`.  Times are
`Date.now()` milliseconds. -/
def spikeRingOpacity (isPlaying : Bool) (spikeTimestamp : Option ℚ) (now : ℚ) : ℚ :=
  match isPlaying, spikeTimestamp with
  | true, some ts =>
    let age := now - ts
    let ageRatio := age / persistenceDurationMs
    9/10 * (1 - ageRatio)
  | _, _ => 9/10

/-- `updateSpikingChannels` of `MEAMovieCanvas`: the tracked map
(channel → timestamp, modelled as an association list) is partitioned by
age; entries with `now - timestamp > persistenceDurationMs` are deleted and
the surviving channels become the active overlay set.  Returns the new
tracked map and the active channel list. -/
def updateSpikingChannels (tracked : List (ℕ × ℚ)) (now : ℚ) :
    List (ℕ × ℚ) × List ℕ :=
  let surviving := tracked.filter (fun e => decide (now - e.2 ≤ persistenceDurationMs))
  (surviving, surviving.map (fun e => e.1))

/-- C3: while playing, a tracked entry of age `a` seconds (`0 ≤ a ≤ 0.5`) is
rendered with opacity `0.9 × (1 − a/0.5)`, which is strictly decreasing in
`a` and is exactly 0 at the 0.5 s boundary; every tracked entry whose age
exceeds the persistence window is evicted; when not playing the opacity is
the constant 0.9 regardless of age. -/
theorem c3_spike_overlay_opacity :
    (∀ ts a : ℚ, 0 ≤ a → a ≤ 1/2 →
      spikeRingOpacity true (some ts) (ts + 1000 * a) = 9/10 * (1 - a / (1/2)))
    ∧ (∀ ts a1 a2 : ℚ, 0 ≤ a1 → a1 < a2 → a2 ≤ 1/2 →
      spikeRingOpacity true (some ts) (ts + 1000 * a2)
        < spikeRingOpacity true (some ts) (ts + 1000 * a1))
    ∧ (∀ ts : ℚ, spikeRingOpacity true (some ts) (ts + 1000 * (1/2)) = 0)
    ∧ (∀ (tracked : List (ℕ × ℚ)) (now : ℚ) (c : ℕ) (ts : ℚ),
        (c, ts) ∈ tracked → persistenceDurationMs < now - ts →
        (c, ts) ∉ (updateSpikingChannels tracked now).1)
    ∧ (∀ (ost : Option ℚ) (now : ℚ), spikeRingOpacity false ost now = 9/10) := by
  have hop : ∀ ts now : ℚ, spikeRingOpacity true (some ts) now
      = 9/10 * (1 - (now - ts) / 500) := by
    intro ts now
    simp [spikeRingOpacity, persistenceDurationMs, SPIKE_PERSISTENCE_DURATION_SEC]
    norm_num
  refine ⟨?_, ?_, ?_, ?_, ?_⟩
  · intro ts a _ _
    rw [hop]
    ring_nf
  · intro ts a1 a2 _ hlt _
    rw [hop, hop]
    have h2 : (ts + 1000 * a2 - ts) / 500 = 2 * a2 := by ring
    have h1 : (ts + 1000 * a1 - ts) / 500 = 2 * a1 := by ring
    rw [h1, h2]
    linarith
  · intro ts
    rw [hop]
    have h : (ts + 1000 * (1/2) - ts) / 500 = 1 := by ring
    rw [h]
    ring
  · intro tracked now c ts hmem hage
    simp only [updateSpikingChannels, List.mem_filter]
    intro hcontra
    have := of_decide_eq_true hcontra.2
    linarith
  · intro ost now
    cases ost <;> rfl

/-- Witness for C3: scenario B numbers — at age 0.25 s (half the window) the
opacity is 0.45; an entry of age 0.6 s is evicted. -/
theorem c3_spike_overlay_opacity_witness :
    spikeRingOpacity true (some 2000) (2000 + 1000 * (1/4)) = 9/10 * (1 - (1/4) / (1/2))
    ∧ (3, (2000 : ℚ)) ∉ (updateSpikingChannels [(3, 2000)] 2600).1 :=
  ⟨c3_spike_overlay_opacity.1 2000 (1/4) (by norm_num) (by norm_num),
   c3_spike_overlay_opacity.2.2.2.1 [(3, 2000)] 2600 3 2000 (by decide)
     (by norm_num [persistenceDurationMs, SPIKE_PERSISTENCE_DURATION_SEC])⟩

/-- Number of electrodes of a flat coordinate array `[x0, y0, x1, y1, ...]`
(`coords.length / 2`). -/
def numElectrodes (coords : List ℚ) : ℕ := coords.length / 2

/-- Squared Euclidean distance between electrodes `i` and `j` of a flat
coordinate array.  Distances are represented by their squares throughout:
squaring is strictly monotone on nonnegative reals, so comparisons of the
source's `Math.sqrt` distances coincide with comparisons of these squares. -/
def pairDistSq (coords : List ℚ) (i j : ℕ) : ℚ :=
  (coords.getD (2 * j) 0 - coords.getD (2 * i) 0) ^ 2
    + (coords.getD (2 * j + 1) 0 - coords.getD (2 * i + 1) 0) ^ 2

/-- The squared distances of all pairs `i < j` visited by the double loop of
`calculateMinElectrodeDistance`. -/
def allPairsDistSq (coords : List ℚ) : List ℚ :=
  (List.range (numElectrodes coords)).flatMap (fun i =>
    ((List.range (numElectrodes coords)).filter (fun j => decide (i < j))).map
      (pairDistSq coords i))

/-- The squared distances that pass the `dist > 0` test of the source loop. -/
def posPairsDistSq (coords : List ℚ) : List ℚ :=
  (allPairsDistSq coords).filter (fun d => decide (0 < d))

/-- Square of `calculateMinElectrodeDistance` (`MEAMovieCanvas`): the minimum
over all strictly positive pairwise distances, with the `Infinity → 10`
fallback (squared: `100`) when no pair has positive distance. -/
def calculateMinElectrodeDistanceSq (coords : List ℚ) : ℚ :=
  match posPairsDistSq coords with
  | [] => 100
  | d :: ds => ds.foldl min d

/-- Square of the electrode marker radius `(minDist * 0.95) / 2` computed in
the `loadCoords` effect of `MEAMovieCanvas`. -/
def electrodeRadiusSq (coords : List ℚ) : ℚ :=
  calculateMinElectrodeDistanceSq coords * (19/20) ^ 2 / 4

/-- Every pair `i < j < numElectrodes` contributes its squared distance to
`allPairsDistSq`. -/
theorem pairDistSq_mem_allPairs (coords : List ℚ) (i j : ℕ)
    (hij : i < j) (hj : j < numElectrodes coords) :
    pairDistSq coords i j ∈ allPairsDistSq coords := by
  unfold allPairsDistSq
  rw [List.mem_flatMap]
  refine ⟨i, List.mem_range.mpr (lt_trans hij hj), ?_⟩
  rw [List.mem_map]
  exact ⟨j, List.mem_filter.mpr ⟨List.mem_range.mpr hj, by simpa using hij⟩, rfl⟩

/-- Conversely, every member of `allPairsDistSq` is the squared distance of
some pair `i < j < numElectrodes`. -/
theorem mem_allPairs_inv (coords : List ℚ) (d : ℚ)
    (hd : d ∈ allPairsDistSq coords) :
    ∃ i j, i < j ∧ j < numElectrodes coords ∧ d = pairDistSq coords i j := by
  unfold allPairsDistSq at hd
  rw [List.mem_flatMap] at hd
  obtain ⟨i, _, hmem⟩ := hd
  rw [List.mem_map] at hmem
  obtain ⟨j, hj, rfl⟩ := hmem
  have hj' := List.mem_filter.mp hj
  exact ⟨i, j, by simpa using hj'.2, List.mem_range.mp hj'.1, rfl⟩

/-- The computed minimum is a lower bound for every retained pair distance. -/
theorem minDistSq_le (coords : List ℚ) (x : ℚ) (hx : x ∈ posPairsDistSq coords) :
    calculateMinElectrodeDistanceSq coords ≤ x := by
  unfold calculateMinElectrodeDistanceSq
  cases h : posPairsDistSq coords with
  | nil => rw [h] at hx; cases hx
  | cons d ds =>
    rw [h] at hx
    rcases List.mem_cons.mp hx with h2 | h2
    · subst h2; exact foldl_min_le_init ds x
    · exact foldl_min_le_mem ds d x h2

/-- The computed minimum distance (squared) is strictly positive. -/
theorem minDistSq_pos (coords : List ℚ) :
    0 < calculateMinElectrodeDistanceSq coords := by
  unfold calculateMinElectrodeDistanceSq
  cases h : posPairsDistSq coords with
  | nil => norm_num
  | cons d ds =>
    have hmem : ∀ x ∈ posPairsDistSq coords, 0 < x := by
      intro x hx
      have := (List.mem_filter.mp hx).2
      simpa using this
    show 0 < List.foldl min d ds
    rcases foldl_min_mem ds d with h2 | h2
    · rw [h2]; exact hmem d (by rw [h]; exact List.mem_cons_self d ds)
    · exact hmem _ (by rw [h]; exact List.mem_cons_of_mem d h2)

/-- C5 counterexample: for the electrode layout `[(0,0), (0,0), (1,0)]`
(two coincident electrodes), the source still computes a positive radius
(0.475, from the smallest positive distance 1), yet electrodes 0 and 1 are
at distance 0 < 2 × radius: their drawn markers overlap, refuting the
claim's "never overlap for any electrode geometry". -/
theorem c5_overlap_counterexample :
    numElectrodes [0, 0, 0, 0, 1, 0] = 3
    ∧ pairDistSq [0, 0, 0, 0, 1, 0] 0 1
        < 4 * electrodeRadiusSq [0, 0, 0, 0, 1, 0] := by
  constructor
  · rfl
  · norm_num [pairDistSq, electrodeRadiusSq, calculateMinElectrodeDistanceSq,
      posPairsDistSq, allPairsDistSq, numElectrodes, List.range_succ]

/-- C5 (amended): the per-electrode marker radius satisfies
`radius² = minDistSq × 0.95²/4` (i.e. `radius = 0.95 × minDist/2`); for the
layout `[(0,0), (1,0), (0,1)]` the minimum pairwise distance is 1 and the
radius is 0.475; for every layout whose pairwise electrode distances are all
positive (distinct positions) the markers never overlap
(`(2·radius)² < dist²` for every pair); and in the degenerate case (fewer
than 2 electrodes, or all pairwise distances zero) the fixed fallback
distance 10 (radius 4.75) is used. -/
theorem c5_marker_radius (coords : List ℚ)
    (hpos : ∀ i j, i < j → j < numElectrodes coords → 0 < pairDistSq coords i j) :
    electrodeRadiusSq [0, 0, 1, 0, 0, 1] = (19/40) ^ 2
    ∧ calculateMinElectrodeDistanceSq [0, 0, 1, 0, 0, 1] = 1
    ∧ (∀ i j, i < j → j < numElectrodes coords →
        4 * electrodeRadiusSq coords < pairDistSq coords i j)
    ∧ (∀ cs : List ℚ,
        (numElectrodes cs < 2
          ∨ ∀ i j, i < j → j < numElectrodes cs → pairDistSq cs i j = 0) →
        calculateMinElectrodeDistanceSq cs = 100) := by
  refine ⟨by norm_num [electrodeRadiusSq, calculateMinElectrodeDistanceSq,
      posPairsDistSq, allPairsDistSq, numElectrodes, pairDistSq, List.range_succ],
    by norm_num [calculateMinElectrodeDistanceSq, posPairsDistSq, allPairsDistSq,
      numElectrodes, pairDistSq, List.range_succ], ?_, ?_⟩
  · intro i j hij hj
    have hmem : pairDistSq coords i j ∈ posPairsDistSq coords :=
      List.mem_filter.mpr ⟨pairDistSq_mem_allPairs coords i j hij hj,
        by simpa using hpos i j hij hj⟩
    have hle := minDistSq_le coords _ hmem
    have hpos' := minDistSq_pos coords
    unfold electrodeRadiusSq
    nlinarith [hle, hpos']
  · intro cs hdeg
    have hempty : posPairsDistSq cs = [] := by
      unfold posPairsDistSq
      rw [List.filter_eq_nil_iff]
      intro d hd
      obtain ⟨i, j, hij, hj, rfl⟩ := mem_allPairs_inv cs d hd
      rcases hdeg with hlt | hzero
      · omega
      · simp [hzero i j hij hj]
    unfold calculateMinElectrodeDistanceSq
    rw [hempty]

/-- Witness for C5 at the scenario-C layout `[(0,0), (1,0), (0,1)]`. -/
theorem c5_marker_radius_witness :
    electrodeRadiusSq [0, 0, 1, 0, 0, 1] = (19/40) ^ 2
    ∧ calculateMinElectrodeDistanceSq [0, 0, 1, 0, 0, 1] = 1
    ∧ (∀ i j, i < j → j < numElectrodes [0, 0, 1, 0, 0, 1] →
        4 * electrodeRadiusSq [0, 0, 1, 0, 0, 1] < pairDistSq [0, 0, 1, 0, 0, 1] i j)
    ∧ (∀ cs : List ℚ,
        (numElectrodes cs < 2
          ∨ ∀ i j, i < j → j < numElectrodes cs → pairDistSq cs i j = 0) →
        calculateMinElectrodeDistanceSq cs = 100) :=
  c5_marker_radius [0, 0, 1, 0, 0, 1] (by
    intro i j hij hj
    norm_num [numElectrodes] at hj
    interval_cases j <;> interval_cases i <;> norm_num [pairDistSq])

/-- `dataRange = 2 × max(|dataMax − dataMedian|, |dataMin − dataMedian|)`
(`MEAMovieCanvas` render effect). -/
def dataRange (dataMin dataMax dataMedian : ℚ) : ℚ :=
  2 * max |dataMax - dataMedian| |dataMin - dataMedian|

/-- JavaScript IEEE-754 numbers as seen by the color pipeline: a finite
value (kept as an exact rational), the two infinities, and NaN.  The
pipeline divides by `dataRange`, which can be zero, so the special values
are reachable and must be modelled; NaN propagates through every operation,
including `Math.min` and `Math.max`. -/
inductive JSNum where
  | num (q : ℚ)
  | posInf
  | negInf
  | nan
  deriving DecidableEq

namespace JSNum

/-- JavaScript unary minus. -/
def neg : JSNum → JSNum
  | num a => num (-a)
  | posInf => negInf
  | negInf => posInf
  | nan => nan

/-- JavaScript `+`: NaN propagates; an infinity absorbs finite values;
opposite infinities give NaN. -/
def add : JSNum → JSNum → JSNum
  | nan, _ => nan
  | _, nan => nan
  | num a, num b => num (a + b)
  | posInf, negInf => nan
  | negInf, posInf => nan
  | posInf, _ => posInf
  | _, posInf => posInf
  | negInf, _ => negInf
  | _, negInf => negInf

/-- JavaScript `-` as `x + (-y)`. -/
def sub (x y : JSNum) : JSNum := add x (neg y)

/-- JavaScript `*`: NaN propagates; `±∞ × 0 = NaN`; otherwise signs
multiply. -/
def mul : JSNum → JSNum → JSNum
  | nan, _ => nan
  | _, nan => nan
  | num a, num b => num (a * b)
  | num a, posInf => if a = 0 then nan else if 0 < a then posInf else negInf
  | posInf, num b => if b = 0 then nan else if 0 < b then posInf else negInf
  | num a, negInf => if a = 0 then nan else if 0 < a then negInf else posInf
  | negInf, num b => if b = 0 then nan else if 0 < b then negInf else posInf
  | posInf, posInf => posInf
  | negInf, negInf => posInf
  | posInf, negInf => negInf
  | negInf, posInf => negInf

/-- JavaScript `/`: NaN propagates; a nonzero finite value divided by zero
gives a signed infinity, and `0/0 = NaN` (the divisor zero here is always
`+0`: `dataRange` is twice a maximum of absolute values). -/
def div : JSNum → JSNum → JSNum
  | nan, _ => nan
  | _, nan => nan
  | num a, num b =>
    if b = 0 then (if a = 0 then nan else if 0 < a then posInf else negInf)
    else num (a / b)
  | posInf, num b => if b < 0 then negInf else posInf
  | negInf, num b => if b < 0 then posInf else negInf
  | num _, posInf => num 0
  | num _, negInf => num 0
  | posInf, posInf => nan
  | posInf, negInf => nan
  | negInf, posInf => nan
  | negInf, negInf => nan

/-- JavaScript `Math.min`: NaN if either argument is NaN. -/
def jmin : JSNum → JSNum → JSNum
  | nan, _ => nan
  | _, nan => nan
  | num a, num b => num (Min.min a b)
  | negInf, _ => negInf
  | _, negInf => negInf
  | posInf, y => y
  | x, posInf => x

/-- JavaScript `Math.max`: NaN if either argument is NaN. -/
def jmax : JSNum → JSNum → JSNum
  | nan, _ => nan
  | _, nan => nan
  | num a, num b => num (Max.max a b)
  | posInf, _ => posInf
  | _, posInf => posInf
  | negInf, y => y
  | x, negInf => x

/-- Whether a JavaScript number is a finite value in `[0, 1]` (what the
colormap contract requires of its input); NaN and the infinities are not. -/
def inUnit : JSNum → Bool
  | num q => decide (0 ≤ q ∧ q ≤ 1)
  | _ => false

end JSNum

/-- The per-electrode color step of the `MEAMovieCanvas` render effect:
normalize around the median (an IEEE division: a zero `dataRange` gives a
signed infinity, or NaN when the value sits at the median), scale by the
contrast factor, clamp via `Math.max(-1, Math.min(1, ·))`, negate (spikes
are negative deflections), and remap to `[0, 1]`.  The source computes
`contrastScale = Math.exp((contrast − 40)/10)`; since `exp` takes
irrational values, the scale is an arbitrary (positive) rational parameter
here, so statements about this function cover every contrast setting. -/
def colorValue (value dataMin dataMax dataMedian contrastScale : ℚ) : JSNum :=
  let normalizedValue := JSNum.add (JSNum.num (1/2))
    (JSNum.div (JSNum.num (value - dataMedian))
      (JSNum.num (dataRange dataMin dataMax dataMedian)))
  let scaledValue := JSNum.mul
    (JSNum.mul (JSNum.sub normalizedValue (JSNum.num (1/2))) (JSNum.num 2))
    (JSNum.num contrastScale)
  let clampedValue := JSNum.jmax (JSNum.num (-1)) (JSNum.jmin (JSNum.num 1) scaledValue)
  let invertedValue := JSNum.neg clampedValue
  JSNum.div (JSNum.add invertedValue (JSNum.num 1)) (JSNum.num 2)

/-- C6 counterexample: for the fully degenerate statistics triple
`dataMin = dataMax = dataMedian = 0` with sample value 0 (at the median),
`dataRange` is 0 and the source computes `0/0 = NaN`, which propagates
through `Math.min`/`Math.max` and the remap: the value handed to the
colormap is NaN, not a member of `[0, 1]`, refuting the claim's "every
recording statistic triple". -/
theorem c6_nan_counterexample :
    colorValue 0 0 0 0 1 = JSNum.nan
    ∧ JSNum.inUnit (colorValue 0 0 0 0 1) = false := by
  constructor <;>
    norm_num [colorValue, dataRange, JSNum.div, JSNum.add, JSNum.sub,
      JSNum.neg, JSNum.mul, JSNum.jmin, JSNum.jmax, JSNum.inUnit]

/-- C6 (amended): for every raw sample value, every statistics triple and
every positive contrast scale (`exp((contrast−40)/10)` is positive for any
contrast), the value handed to the colormap function is a finite number in
`[0, 1]` — meeting the colormap contract that callers clamp before
invocation — except in the fully degenerate case
(`dataRange = 0`, i.e. `dataMin = dataMax = dataMedian`, with the sample
value at the median), where the computation produces NaN. -/
theorem c6_color_value_unit_or_nan
    (value dataMin dataMax dataMedian contrastScale : ℚ)
    (hcs : 0 < contrastScale) :
    (¬ (dataRange dataMin dataMax dataMedian = 0 ∧ value = dataMedian) →
      JSNum.inUnit (colorValue value dataMin dataMax dataMedian contrastScale)
        = true)
    ∧ (dataRange dataMin dataMax dataMedian = 0 → value = dataMedian →
      colorValue value dataMin dataMax dataMedian contrastScale = JSNum.nan) := by
  have hstep : ∀ s : ℚ, JSNum.inUnit (JSNum.div (JSNum.add (JSNum.neg
      (JSNum.jmax (JSNum.num (-1)) (JSNum.jmin (JSNum.num 1) (JSNum.num s))))
      (JSNum.num 1)) (JSNum.num 2)) = true := by
    intro s
    have h1 : -1 ≤ Max.max (-1 : ℚ) (Min.min 1 s) := le_max_left _ _
    have h2 : Max.max (-1 : ℚ) (Min.min 1 s) ≤ 1 :=
      max_le (by norm_num) (min_le_left _ _)
    simp only [JSNum.jmin, JSNum.jmax, JSNum.neg, JSNum.add, JSNum.div,
      JSNum.inUnit, decide_eq_true_eq]
    norm_num
    constructor <;> linarith
  constructor
  · intro hnot
    by_cases hr : dataRange dataMin dataMax dataMedian = 0
    · have hv : value ≠ dataMedian := fun hv => hnot ⟨hr, hv⟩
      have hsub : value - dataMedian ≠ 0 := sub_ne_zero.mpr hv
      rcases lt_or_gt_of_ne hsub with hneg | hpos
      · simp only [colorValue, hr, JSNum.div, if_pos rfl, if_neg hsub,
          if_neg (not_lt.mpr hneg.le)]
        simp only [JSNum.add, JSNum.sub, JSNum.neg, JSNum.mul, JSNum.jmin,
          JSNum.jmax]
        norm_num [hcs.ne', hcs, JSNum.div, JSNum.inUnit]
      · simp only [colorValue, hr, JSNum.div, if_pos rfl, if_neg hsub,
          if_pos hpos]
        simp only [JSNum.add, JSNum.sub, JSNum.neg, JSNum.mul, JSNum.jmin,
          JSNum.jmax]
        norm_num [hcs.ne', hcs, JSNum.div, JSNum.inUnit]
    · simp only [colorValue, JSNum.div, if_neg hr, JSNum.add, JSNum.sub,
        JSNum.neg, JSNum.mul]
      exact hstep _
  · intro hr hv
    subst hv
    simp [colorValue, hr, JSNum.div, JSNum.add, JSNum.sub, JSNum.neg,
      JSNum.mul, JSNum.jmin, JSNum.jmax]

/-- Witness for C6: a non-degenerate triple gives a colormap input in
`[0, 1]`; the fully degenerate triple gives NaN. -/
theorem c6_color_value_unit_or_nan_witness :
    JSNum.inUnit (colorValue 1 (-1) 1 0 1) = true
    ∧ colorValue 0 0 0 0 1 = JSNum.nan :=
  ⟨(c6_color_value_unit_or_nan 1 (-1) 1 0 1 (by norm_num)).1
      (by norm_num [dataRange]),
   (c6_color_value_unit_or_nan 0 0 0 0 1 (by norm_num)).2
      (by norm_num [dataRange]) rfl⟩

/-- The always-empty frame-to-channel-set map (a fresh `new Map()`). -/
def emptySpikeMap : ℕ → List ℕ := fun _ => []

/-- One iteration of the `#loadSpikeData` map-building loop: add channel `c`
to the set at frame `f`.  A JavaScript `Map` of `Set`s is modelled
extensionally as a function from frame index to the list of inserted
channels (insertion order, no duplicates, as `Set` iteration yields). -/
def addSpike (m : ℕ → List ℕ) (f c : ℕ) : ℕ → List ℕ :=
  fun g => if g = f then (if c ∈ m f then m f else m f ++ [c]) else m g

/-- `#loadSpikeData` map construction: for `k = 0 .. numSpikes−1`, insert
`spikeChannelIndices[k]` into the set at `spikeFrameIndices[k]`. -/
def buildSpikesByFrame (numSpikes : ℕ) (frames channels : List ℕ) : ℕ → List ℕ :=
  (List.range numSpikes).foldl
    (fun m k => addSpike m (frames.getD k 0) (channels.getD k 0)) emptySpikeMap

/-- `getSpikingChannels(frameIndex)`: the private map is `null` exactly when
no spike data exists (`create` only loads it when `numSpikes > 0`), in which
case the result is `[]`; otherwise it is the map lookup (empty when the
frame is absent from the map). -/
def getSpikingChannels (numSpikes : ℕ) (frames channels : List ℕ) (i : ℕ) : List ℕ :=
  if numSpikes = 0 then [] else buildSpikesByFrame numSpikes frames channels i

/-- Membership in the map after one insertion. -/
theorem mem_addSpike (m : ℕ → List ℕ) (f c g d : ℕ) :
    d ∈ addSpike m f c g ↔ d ∈ m g ∨ (g = f ∧ d = c) := by
  unfold addSpike
  by_cases hg : g = f
  · subst hg
    by_cases hc : c ∈ m g
    · simp only [eq_self_iff_true, if_true, hc, true_and]
      constructor
      · exact fun h => Or.inl h
      · rintro (h | rfl)
        · exact h
        · exact hc
    · simp only [eq_self_iff_true, if_true, hc, if_false, List.mem_append,
        List.mem_singleton, true_and]
  · simp [hg]

/-- Membership in the fully built map: channel `d` is at frame `g` exactly
when some spike `k < numSpikes` has that frame and channel. -/
theorem mem_buildSpikesByFrame (numSpikes : ℕ) (frames channels : List ℕ) (g d : ℕ) :
    d ∈ buildSpikesByFrame numSpikes frames channels g
      ↔ ∃ k, k < numSpikes ∧ frames.getD k 0 = g ∧ channels.getD k 0 = d := by
  induction numSpikes with
  | zero => simp [buildSpikesByFrame, emptySpikeMap]
  | succ n ih =>
    unfold buildSpikesByFrame at ih ⊢
    rw [List.range_succ, List.foldl_append, List.foldl_cons, List.foldl_nil,
      mem_addSpike, ih]
    constructor
    · rintro (⟨k, hk, h1, h2⟩ | ⟨h1, h2⟩)
      · exact ⟨k, by omega, h1, h2⟩
      · exact ⟨n, by omega, h1.symm, h2.symm⟩
    · rintro ⟨k, hk, h1, h2⟩
      rcases Nat.lt_succ_iff_lt_or_eq.mp hk with h | rfl
      · exact Or.inl ⟨k, h, h1, h2⟩
      · exact Or.inr ⟨h1.symm, h2.symm⟩

/-- C9: `getSpikingChannels(i)` returns exactly the channels `c` such that
some spike `k < numSpikes` has `spikeFrameIndices[k] = i` and
`spikeChannelIndices[k] = c`; in particular it is empty when no spike
occurs at `i` and when no spike data exists (`numSpikes = 0`). -/
theorem c9_get_spiking_channels (numSpikes : ℕ) (frames channels : List ℕ)
    (hf : frames.length = numSpikes) (hc : channels.length = numSpikes)
    (i c : ℕ) :
    (c ∈ getSpikingChannels numSpikes frames channels i
      ↔ ∃ k, k < numSpikes ∧ frames.getD k 0 = i ∧ channels.getD k 0 = c)
    ∧ (numSpikes = 0 → getSpikingChannels numSpikes frames channels i = [])
    ∧ ((∀ k, k < numSpikes → frames.getD k 0 ≠ i) →
        getSpikingChannels numSpikes frames channels i = []) := by
  refine ⟨?_, ?_, ?_⟩
  · unfold getSpikingChannels
    by_cases h0 : numSpikes = 0
    · subst h0
      simp
    · rw [if_neg h0]
      exact mem_buildSpikesByFrame numSpikes frames channels i c
  · intro h0
    simp [getSpikingChannels, h0]
  · intro hno
    rw [List.eq_nil_iff_forall_not_mem]
    intro x hx
    unfold getSpikingChannels at hx
    by_cases h0 : numSpikes = 0
    · rw [if_pos h0] at hx
      cases hx
    · rw [if_neg h0] at hx
      obtain ⟨k, hk, hfk, -⟩ := (mem_buildSpikesByFrame numSpikes frames channels i x).mp hx
      exact hno k hk hfk

/-- Witness for C9: two spikes `(frame 100, channel 3)` and
`(frame 5, channel 7)`; channel 3 spikes at frame 100. -/
theorem c9_get_spiking_channels_witness :
    ((3 ∈ getSpikingChannels 2 [100, 5] [3, 7] 100
      ↔ ∃ k, k < 2 ∧ [100, 5].getD k 0 = 100 ∧ [3, 7].getD k 0 = 3)
    ∧ (2 = 0 → getSpikingChannels 2 [100, 5] [3, 7] 100 = [])
    ∧ ((∀ k, k < 2 → [100, 5].getD k 0 ≠ 100) →
        getSpikingChannels 2 [100, 5] [3, 7] 100 = [])) :=
  c9_get_spiking_channels 2 [100, 5] [3, 7] rfl rfl 100 3

/-- A loaded 2D dataset of the chunked array store (`raw_data`): a shape and
a total value function.  `getData({slice: [[r0,r1],[c0,c1]]})` returns the
row-major flattening of the requested hyperrectangle. -/
structure RawDataset where
  numRows : ℕ
  numCols : ℕ
  value : ℕ → ℕ → ℤ

/-- The slice read issued by the store's `getData`. -/
def RawDataset.getDataSlice (d : RawDataset) (r0 r1 c0 c1 : ℕ) : List ℤ :=
  (List.range (r1 - r0)).flatMap (fun i =>
    (List.range (c1 - c0)).map (fun j => d.value (r0 + i) (c0 + j)))

/-- The attributes and datasets of the recording's zarr group read by
`MEAMovieClient.create`; `none` models an absent attribute or dataset. -/
structure ZarrGroupModel where
  num_timepoints : Option ℕ
  num_channels : Option ℕ
  sampling_frequency_hz : Option ℚ
  start_time_sec : Option ℚ
  data_min : Option ℚ
  data_max : Option ℚ
  data_median : Option ℚ
  num_spikes : Option ℕ
  raw_data : Option RawDataset
  spike_channel_indices : Option (List ℕ)
  spike_frame_indices : Option (List ℕ)

/-- The failure taxonomy of the load and frame-access phases
(thrown `Error`s of `MEAMovieClient`, named as in the specification). -/
inductive MEAError where
  | missingDataset (name : String)
  | missingMetadata
  | indexOutOfRange (index : ℤ)
  deriving DecidableEq

/-- The fields of a successfully constructed `MEAMovieClient`. -/
structure MEAMovieClient where
  numTimepoints : ℕ
  numChannels : ℕ
  samplingFrequencyHz : ℚ
  startTimeSec : ℚ
  dataMin : ℚ
  dataMax : ℚ
  dataMedian : ℚ
  rawDataDataset : RawDataset
  numSpikes : ℕ
  spikeChannelIndices : Option (List ℕ)
  spikeFrameIndices : Option (List ℕ)
  spikesByFrame : Option (ℕ → List ℕ)

/-- `MEAMovieClient.create(zarrGroup)`: reads the attributes, fetches the
`raw_data` dataset (failing if absent), fails with the missing-metadata
error if any required attribute is undefined, and — when
`numSpikes = attrs["num_spikes"] || 0` is positive — eagerly loads the two
parallel spike arrays (failing if either dataset is absent) and builds the
frame-to-channel-set map.  Any failure aborts the whole construction; no
client value is produced. -/
def createClient (g : ZarrGroupModel) : Except MEAError MEAMovieClient :=
  match g.raw_data with
  | none => Except.error (MEAError.missingDataset "raw_data")
  | some rawDataDataset =>
    match g.num_timepoints, g.num_channels, g.sampling_frequency_hz,
        g.start_time_sec, g.data_min, g.data_max, g.data_median with
    | some numTimepoints, some numChannels, some samplingFrequencyHz,
        some startTimeSec, some dataMin, some dataMax, some dataMedian =>
      let numSpikes := g.num_spikes.getD 0
      if 0 < numSpikes then
        match g.spike_channel_indices with
        | none => Except.error (MEAError.missingDataset "spike_channel_indices")
        | some spikeChannelIndices =>
          match g.spike_frame_indices with
          | none => Except.error (MEAError.missingDataset "spike_frame_indices")
          | some spikeFrameIndices =>
            Except.ok
              { numTimepoints := numTimepoints
                numChannels := numChannels
                samplingFrequencyHz := samplingFrequencyHz
                startTimeSec := startTimeSec
                dataMin := dataMin
                dataMax := dataMax
                dataMedian := dataMedian
                rawDataDataset := rawDataDataset
                numSpikes := numSpikes
                spikeChannelIndices := some spikeChannelIndices
                spikeFrameIndices := some spikeFrameIndices
                spikesByFrame :=
                  some (buildSpikesByFrame numSpikes spikeFrameIndices
                    spikeChannelIndices) }
      else
        Except.ok
          { numTimepoints := numTimepoints
            numChannels := numChannels
            samplingFrequencyHz := samplingFrequencyHz
            startTimeSec := startTimeSec
            dataMin := dataMin
            dataMax := dataMax
            dataMedian := dataMedian
            rawDataDataset := rawDataDataset
            numSpikes := numSpikes
            spikeChannelIndices := none
            spikeFrameIndices := none
            spikesByFrame := none }
    | _, _, _, _, _, _, _ => Except.error MEAError.missingMetadata

/-- At least one of the seven required attributes is absent. -/
def hasMissingRequiredAttr (g : ZarrGroupModel) : Prop :=
  g.num_timepoints = none ∨ g.num_channels = none
    ∨ g.sampling_frequency_hz = none ∨ g.start_time_sec = none
    ∨ g.data_min = none ∨ g.data_max = none ∨ g.data_median = none

/-- A zarr group with no attributes and no datasets at all. -/
def gEmpty : ZarrGroupModel :=
  { num_timepoints := none, num_channels := none, sampling_frequency_hz := none
    start_time_sec := none, data_min := none, data_max := none
    data_median := none, num_spikes := none, raw_data := none
    spike_channel_indices := none, spike_frame_indices := none }

/-- C7 counterexample: a group whose required attributes are all absent but
whose `raw_data` dataset is also absent fails with the missing-dataset
error, not the missing-metadata error — `create` checks the attributes only
after fetching `raw_data`, refuting the claim's unconditional "whenever". -/
theorem c7_missing_raw_data_counterexample :
    gEmpty.num_timepoints = none
    ∧ createClient gEmpty = Except.error (MEAError.missingDataset "raw_data")
    ∧ createClient gEmpty ≠ Except.error MEAError.missingMetadata := by
  refine ⟨rfl, rfl, ?_⟩
  intro h
  have h2 := Except.error.inj h
  exact MEAError.noConfusion h2

/-- C7 (amended): whenever any required attribute is absent and the
`raw_data` dataset is present, `create` fails with the missing-metadata
error (a missing `raw_data` dataset is reported first, as a missing-dataset
error); and every load-phase failure is terminal — a client is returned
only when all required attributes and datasets were present, fully
populated, never partial. -/
theorem c7_create_failure_modes (g : ZarrGroupModel) :
    (∀ d, g.raw_data = some d → hasMissingRequiredAttr g →
      createClient g = Except.error MEAError.missingMetadata)
    ∧ (∀ c, createClient g = Except.ok c →
        g.raw_data = some c.rawDataDataset
        ∧ g.num_timepoints = some c.numTimepoints
        ∧ g.num_channels = some c.numChannels
        ∧ g.sampling_frequency_hz = some c.samplingFrequencyHz
        ∧ g.start_time_sec = some c.startTimeSec
        ∧ g.data_min = some c.dataMin
        ∧ g.data_max = some c.dataMax
        ∧ g.data_median = some c.dataMedian
        ∧ c.numSpikes = g.num_spikes.getD 0
        ∧ (0 < c.numSpikes →
            ∃ chans frames, g.spike_channel_indices = some chans
              ∧ g.spike_frame_indices = some frames
              ∧ c.spikesByFrame
                  = some (buildSpikesByFrame c.numSpikes frames chans))) := by
  obtain ⟨nt, nc, sf, st, dmin, dmax, dmed, ns, raw, sci, sfi⟩ := g
  constructor
  · intro d hd hmiss
    dsimp only at hd hmiss ⊢
    subst hd
    cases nt with
    | none => rfl
    | some nt =>
      cases nc with
      | none => rfl
      | some nc =>
        cases sf with
        | none => rfl
        | some sf =>
          cases st with
          | none => rfl
          | some st =>
            cases dmin with
            | none => rfl
            | some dmin =>
              cases dmax with
              | none => rfl
              | some dmax =>
                cases dmed with
                | none => rfl
                | some dmed => simp [hasMissingRequiredAttr] at hmiss
  · intro c hok
    cases raw with
    | none => exact Except.noConfusion hok
    | some d =>
      cases nt with
      | none => exact Except.noConfusion hok
      | some nt =>
        cases nc with
        | none => exact Except.noConfusion hok
        | some nc =>
          cases sf with
          | none => exact Except.noConfusion hok
          | some sf =>
            cases st with
            | none => exact Except.noConfusion hok
            | some st =>
              cases dmin with
              | none => exact Except.noConfusion hok
              | some dmin =>
                cases dmax with
                | none => exact Except.noConfusion hok
                | some dmax =>
                  cases dmed with
                  | none => exact Except.noConfusion hok
                  | some dmed =>
                    cases ns with
                    | none =>
                      have hc := Except.ok.inj hok
                      subst hc
                      exact ⟨rfl, rfl, rfl, rfl, rfl, rfl, rfl, rfl, rfl,
                        fun hpos => absurd hpos (Nat.lt_irrefl 0)⟩
                    | some n =>
                      cases n with
                      | zero =>
                        have hc := Except.ok.inj hok
                        subst hc
                        exact ⟨rfl, rfl, rfl, rfl, rfl, rfl, rfl, rfl, rfl,
                          fun hpos => absurd hpos (Nat.lt_irrefl 0)⟩
                      | succ n =>
                        simp only [createClient, Option.getD_some] at hok
                        rw [if_pos (Nat.succ_pos n)] at hok
                        cases sci with
                        | none => simp at hok
                        | some chans =>
                          cases sfi with
                          | none => simp at hok
                          | some frames =>
                            have hc := Except.ok.inj hok
                            subst hc
                            exact ⟨rfl, rfl, rfl, rfl, rfl, rfl, rfl, rfl, rfl,
                              fun _ => ⟨chans, frames, rfl, rfl, rfl⟩⟩

/-- The `raw_data` dataset of the scenario-D recording: 20000 rows by 4
channels, all values 0. -/
def rawA : RawDataset :=
  { numRows := 20000, numCols := 4, value := fun _ _ => 0 }

/-- A group holding its `raw_data` dataset but none of the required
attributes. -/
def gMissingAttrs : ZarrGroupModel :=
  { gEmpty with raw_data := some rawA }

/-- Witness for C7: the group with `raw_data` present and all required
attributes absent fails with the missing-metadata error. -/
theorem c7_create_failure_modes_witness :
    createClient gMissingAttrs = Except.error MEAError.missingMetadata :=
  (c7_create_failure_modes gMissingAttrs).1 rawA rfl (Or.inl rfl)

/-- `getFrameData(timeIndex)`: validates `0 <= timeIndex < numTimepoints`
(failing with the index-out-of-range error) and otherwise issues the
single-row slice `[timeIndex, timeIndex+1) × [0, numChannels)` against the
store, returning the flat per-channel array. -/
def MEAMovieClient.getFrameData (c : MEAMovieClient) (timeIndex : ℤ) :
    Except MEAError (List ℤ) :=
  if timeIndex < 0 ∨ (c.numTimepoints : ℤ) ≤ timeIndex then
    Except.error (MEAError.indexOutOfRange timeIndex)
  else
    Except.ok (c.rawDataDataset.getDataSlice timeIndex.toNat (timeIndex.toNat + 1)
      0 c.numChannels)

/-- The loaded client of scenario D: 20000 timepoints, 4 channels, no
spikes. -/
def clientA : MEAMovieClient :=
  { numTimepoints := 20000
    numChannels := 4
    samplingFrequencyHz := 20000
    startTimeSec := 0
    dataMin := -100
    dataMax := 50
    dataMedian := 0
    rawDataDataset := rawA
    numSpikes := 0
    spikeChannelIndices := none
    spikeFrameIndices := none
    spikesByFrame := none }

/-- C8: `getFrame(index)` fails with the index-out-of-range error if and
only if `index < 0` or `index ≥ sampleCount`; for every valid index it
issues the single-row slice `[index, index+1) × [0, channelCount)` and
returns it as the flat per-channel value list; and in scenario D
(`sampleCount = 20000`) `getFrame(20000)` fails while `getFrame(0)` and
`getFrame(19999)` succeed. -/
theorem c8_get_frame_validation (c : MEAMovieClient) (i : ℤ) :
    ((∃ e, c.getFrameData i = Except.error e)
      ↔ i < 0 ∨ (c.numTimepoints : ℤ) ≤ i)
    ∧ (0 ≤ i → i < (c.numTimepoints : ℤ) →
        c.getFrameData i
          = Except.ok (c.rawDataDataset.getDataSlice i.toNat (i.toNat + 1)
              0 c.numChannels)
        ∧ c.rawDataDataset.getDataSlice i.toNat (i.toNat + 1) 0 c.numChannels
            = (List.range c.numChannels).map
                (fun ch => c.rawDataDataset.value i.toNat ch))
    ∧ clientA.getFrameData 20000 = Except.error (MEAError.indexOutOfRange 20000)
    ∧ clientA.getFrameData 0
        = Except.ok ((List.range 4).map (fun ch => clientA.rawDataDataset.value 0 ch))
    ∧ clientA.getFrameData 19999
        = Except.ok ((List.range 4).map
            (fun ch => clientA.rawDataDataset.value 19999 ch)) := by
  refine ⟨?_, ?_, rfl, rfl, rfl⟩
  · unfold MEAMovieClient.getFrameData
    by_cases h : i < 0 ∨ (c.numTimepoints : ℤ) ≤ i
    · rw [if_pos h]
      simp [h]
    · rw [if_neg h]
      simp [h]
  · intro h0 hN
    have h : ¬ (i < 0 ∨ (c.numTimepoints : ℤ) ≤ i) := by omega
    constructor
    · unfold MEAMovieClient.getFrameData
      rw [if_neg h]
    · have h1 : i.toNat + 1 - i.toNat = 1 := by omega
      have h2 : List.range 1 = [0] := rfl
      simp [RawDataset.getDataSlice, h1, h2]

/-- Witness for C8 at the scenario-D client and the valid index 7. -/
theorem c8_get_frame_validation_witness :
    ((∃ e, clientA.getFrameData 7 = Except.error e)
      ↔ (7 : ℤ) < 0 ∨ (clientA.numTimepoints : ℤ) ≤ 7)
    ∧ ((0 : ℤ) ≤ 7 → (7 : ℤ) < (clientA.numTimepoints : ℤ) →
        clientA.getFrameData 7
          = Except.ok (clientA.rawDataDataset.getDataSlice (7 : ℤ).toNat
              ((7 : ℤ).toNat + 1) 0 clientA.numChannels)
        ∧ clientA.rawDataDataset.getDataSlice (7 : ℤ).toNat ((7 : ℤ).toNat + 1)
              0 clientA.numChannels
            = (List.range clientA.numChannels).map
                (fun ch => clientA.rawDataDataset.value (7 : ℤ).toNat ch))
    ∧ clientA.getFrameData 20000 = Except.error (MEAError.indexOutOfRange 20000)
    ∧ clientA.getFrameData 0
        = Except.ok ((List.range 4).map (fun ch => clientA.rawDataDataset.value 0 ch))
    ∧ clientA.getFrameData 19999
        = Except.ok ((List.range 4).map
            (fun ch => clientA.rawDataDataset.value 19999 ch)) :=
  c8_get_frame_validation clientA 7

/-- State of the `loadFrame` effect of `MEAMovieCanvas` as seen by the
interleaving semantics: the currently selected sample index, which index's
frame data is displayed (`frameData` state), and the indices of the
`getFrameData` fetches still in flight, in issue order. -/
structure CanvasFetchState where
  selectedIndex : ℕ
  displayedFrameIndex : Option ℕ
  pending : List ℕ

/-- Events of the frame-fetch interleaving: `select i` is a change of
`currentTimeIndex` (the effect re-runs and issues a fetch for `i`);
`resolve k` is the arrival of the response to the `k`-th pending fetch. -/
inductive CanvasEvent where
  | select (i : ℕ)
  | resolve (k : ℕ)

/-- One event step.  On `select i` the effect starts a fetch for `i`.  On
`resolve k` the awaiting handler runs `setFrameData(data)` unconditionally —
the source's `loadFrame` has no cancellation flag or staleness check, so the
resolved fetch's index becomes the displayed frame whether or not it is the
currently selected index. -/
def canvasStep (s : CanvasFetchState) (e : CanvasEvent) : CanvasFetchState :=
  match e with
  | CanvasEvent.select i =>
    { s with selectedIndex := i, pending := s.pending ++ [i] }
  | CanvasEvent.resolve k =>
    match s.pending[k]? with
    | some i =>
      { s with displayedFrameIndex := some i, pending := s.pending.eraseIdx k }
    | none => s

/-- Run a sequence of events from the initial state. -/
def runCanvas (events : List CanvasEvent) : CanvasFetchState :=
  events.foldl canvasStep
    { selectedIndex := 0, displayedFrameIndex := none, pending := [] }

/-- C10 failing execution: select index 5, then index 6; the fetch for 6
resolves first, then the stale fetch for 5 resolves.  The code applies the
stale response, leaving frame 5 displayed while index 6 is selected —
contradicting the claim that a response for a no-longer-selected index is
discarded and leaves the displayed state unchanged. -/
theorem c10_stale_frame_applied :
    (runCanvas [CanvasEvent.select 5, CanvasEvent.select 6,
        CanvasEvent.resolve 1, CanvasEvent.resolve 0]).selectedIndex = 6
    ∧ (runCanvas [CanvasEvent.select 5, CanvasEvent.select 6,
        CanvasEvent.resolve 1, CanvasEvent.resolve 0]).displayedFrameIndex
        = some 5 :=
  ⟨rfl, rfl⟩
